import Mathlib

/-!
Verification development for the `cpplondon` benchmark pair
(`Strategy_Benchmark.cpp`, `Visitor_Benchmark.cpp`): a shallow embedding of
the shape-translation namespaces and of the hand-rolled small-buffer
type-erased callable `manual_function_solution::Function<R(Args...),N>`,
together with theorems about them.

Modelling conventions:
* C++ `double` is modelled as `ℚ`; the only arithmetic performed on it in
  the sources is componentwise addition.
* A C++ callable object is modelled as a `Closure`: its storage footprint
  in bytes (`size`, standing for `sizeof(Fn)`) together with its meaning as
  a pure function.  By-reference mutation of arguments is modelled by
  state passing (the function returns the updated value).
* Object lifetime (placement-new / explicit destructor calls in the
  `Function` buffer) is modelled by an event trace: each placement
  construction of a wrapper object is given a fresh identifier and emits a
  `construct` event, each `~Concept()` call emits a `destroy` event.
-/

/-- `Vector3D` from both benchmark files: three `double` components,
value-initialized to zero by the `x{} y{} z{}` member initializers. -/
structure Vector3D where
  x : ℚ
  y : ℚ
  z : ℚ
deriving DecidableEq, Repr

/-- `operator+(const Vector3D&, const Vector3D&)`: componentwise sum. -/
def Vector3D.add (a b : Vector3D) : Vector3D :=
  ⟨a.x + b.x, a.y + b.y, a.z + b.z⟩

instance : Add Vector3D := ⟨Vector3D.add⟩

/-- The zero vector, i.e. a value-initialized `Vector3D{}`. -/
def Vector3D.zero : Vector3D := ⟨0, 0, 0⟩

/-- Sum of a list of translation vectors, accumulated left to right the
way repeated `center = center + v` passes accumulate. -/
def vsum (vs : List Vector3D) : Vector3D :=
  vs.foldl (· + ·) Vector3D.zero

namespace manual_function_solution

/-- A C++ callable value as stored in `Function`: its storage footprint in
bytes (`sizeof(Fn)`) and its behaviour as a pure function `α → β`. -/
structure Closure (α β : Type) where
  size : Nat
  fn : α → β

/-- `manual_function_solution::Function<R(Args...),N>`: after the
converting constructor runs, the inline buffer holds exactly one payload
(a `Model<Fn>` wrapping the callable), and the `static_assert` in the
constructor guarantees `sizeof(Fn) <= N`.  The proof field records that
compile-time guarantee: no `Function` value with an oversized payload can
exist. -/
structure Function (α β : Type) (N : Nat) where
  payload : Closure α β
  size_le : payload.size ≤ N

/-- The converting constructor `Function(Fn fn)`: placement-constructs
`Model<Fn>(fn)` into the buffer.  The hypothesis is the
`static_assert( sizeof(Fn) <= N )`. -/
def Function.construct {α β : Type} {N : Nat} (fn : Closure α β)
    (h : fn.size ≤ N) : Function α β N :=
  ⟨fn, h⟩

/-- `R operator()(Args... args)`: forwards to the stored payload through
`(*pimpl_)(args...)`, i.e. `Model<Fn>::operator()` calls `fn_(args...)`. -/
def Function.invoke {α β : Type} {N : Nat} (f : Function α β N) (a : α) : β :=
  f.payload.fn a

/-- The copy constructor `Function(Function const& f)`: runs
`f.pimpl_->clone(pimpl_)`, i.e. `Model<Fn>::clone` placement-constructs
`Model(fn_)` — a copy of the payload — into the destination buffer. -/
def Function.copy {α β : Type} {N : Nat} (f : Function α β N) :
    Function α β N :=
  ⟨f.payload, f.size_le⟩

/-- Modelling the compile-time gate of the converting constructor as a
total function: a callable whose `sizeof` exceeds `N` has no construction
path (the `static_assert` fires), an admissible one is stored. -/
def tryConstruct {α β : Type} (N : Nat) (fn : Closure α β) :
    Option (Function α β N) :=
  if h : fn.size ≤ N then some ⟨fn, h⟩ else none

/-- Size, in bytes, of the `Concept*`-style vtable pointer at the head of
a `Model<Fn>` object on the LP64 platform the benchmark targets. -/
def ptrSize : Nat := 8

/-- Round `n` up to the next multiple of the alignment `a`. -/
def alignUp (n a : Nat) : Nat := ((n + a - 1) / a) * a

/-- Alignment of the wrapper `Model<Fn>` on the LP64 target: the larger
of the vtable pointer's 8-byte alignment and `alignof(Fn)`. -/
def modelAlign (fnAlign : Nat) : Nat := max 8 fnAlign

/-- Offset of the member `Fn fn_` inside `Model<Fn>`: the first
`alignof(Fn)`-aligned offset after the 8-byte vtable pointer. -/
def fnOffset (fnAlign : Nat) : Nat := alignUp ptrSize fnAlign

/-- Storage footprint `sizeof(Model<Fn>)` under the LP64 (Itanium) object
layout: the vtable pointer, then `fn_` at its aligned offset, then tail
padding up to the object's alignment. -/
def modelSize (fnSize fnAlign : Nat) : Nat :=
  alignUp (fnOffset fnAlign + fnSize) (modelAlign fnAlign)

/-- The inline buffer `char buffer[N+8UL]` of `Function<R(Args...),N>`. -/
def bufferSize (N : Nat) : Nat := N + 8

/-- A lifetime event inside a `Function` buffer: placement construction of
a wrapper (`Model<Fn>`) object, given a fresh identifier, or the explicit
destructor call `~Concept()` on it. -/
inductive Event where
  | construct (id : Nat)
  | destroy (id : Nat)
deriving DecidableEq, Repr

/-- A live `Function` container as seen by the lifetime model: the
identifier of the wrapper object currently placement-constructed in its
buffer (what `pimpl_` points at), and the callable value it holds. -/
structure Container (α : Type) where
  id : Nat
  payload : α
deriving DecidableEq, Repr

/-- The full copy-assignment expression `dst = src` for
`Function& operator=( Function f )`: the parameter `f` is passed by value,
so first `f` is copy-constructed from `src` (`clone` into `f`'s buffer, a
fresh wrapper object); then the body runs `pimpl_->~Concept()` on `dst`'s
current payload and `f.pimpl_->clone( pimpl_ )` placement-constructs a
copy of `f`'s payload into `dst`'s buffer (again a fresh wrapper object);
finally the temporary `f` is destroyed at the end of the full expression.
Returns the updated `dst`, the next fresh identifier, and the emitted
events in program order. -/
def copyAssign {α : Type} (dst src : Container α) (fresh : Nat) :
    Container α × Nat × List Event :=
  (⟨fresh + 1, src.payload⟩, fresh + 2,
    [.construct fresh, .destroy dst.id, .construct (fresh + 1), .destroy fresh])

/-- Client operations on a family of `Function` containers, as the
benchmark's calling code may perform them: construct a fresh container
from a callable, copy-construct from container `j`, or copy-assign
container `j` into container `i`. -/
inductive Op (α : Type) where
  | newC (p : α)
  | copyC (j : Nat)
  | assignC (i j : Nat)

/-- State of the lifetime model: the live containers, the next fresh
wrapper identifier, and the trace of all events emitted so far. -/
structure MState (α : Type) where
  containers : List (Container α)
  fresh : Nat
  trace : List Event

/-- No containers yet, empty trace. -/
def MState.init (α : Type) : MState α := ⟨[], 0, []⟩

/-- One client operation.  An out-of-range index is a no-op (the client
can only name containers that exist). -/
def step {α : Type} (s : MState α) : Op α → MState α
  | .newC p =>
      ⟨s.containers ++ [⟨s.fresh, p⟩], s.fresh + 1, s.trace ++ [.construct s.fresh]⟩
  | .copyC j =>
      match s.containers[j]? with
      | some c =>
          ⟨s.containers ++ [⟨s.fresh, c.payload⟩], s.fresh + 1,
            s.trace ++ [.construct s.fresh]⟩
      | none => s
  | .assignC i j =>
      match s.containers[i]?, s.containers[j]? with
      | some ci, some cj =>
          let r := copyAssign ci cj s.fresh
          ⟨s.containers.set i r.1, r.2.1, s.trace ++ r.2.2⟩
      | _, _ => s

/-- Run a sequence of client operations. -/
def runOps {α : Type} (s : MState α) : List (Op α) → MState α
  | [] => s
  | op :: ops => runOps (step s op) ops

/-- Scope exit: every container's destructor `~Function()` runs, each
invoking `pimpl_->~Concept()` on its current payload. -/
def destroyAll {α : Type} (s : MState α) : MState α :=
  ⟨[], s.fresh, s.trace ++ s.containers.map (fun c => Event.destroy c.id)⟩

/-- How many times wrapper `id` was placement-constructed in `tr`. -/
def conCount (tr : List Event) (id : Nat) : Nat := tr.count (Event.construct id)

/-- How many times wrapper `id` was destroyed in `tr`. -/
def desCount (tr : List Event) (id : Nat) : Nat := tr.count (Event.destroy id)

/-- Identifiers of the wrapper objects currently live in some buffer. -/
def liveIds {α : Type} (s : MState α) : List Nat := s.containers.map Container.id

/-- The lifetime invariant of a family of `Function` containers: every
live wrapper identifier is in the past of the fresh counter; identifiers
not yet issued have no events; every identifier ever constructed is
constructed at most once, and is either destroyed exactly as often as it
was constructed or still live in exactly one buffer. -/
def Inv {α : Type} (s : MState α) : Prop :=
  (∀ c ∈ s.containers, c.id < s.fresh) ∧
  (∀ id, s.fresh ≤ id → conCount s.trace id = 0 ∧ desCount s.trace id = 0) ∧
  (∀ id, conCount s.trace id = desCount s.trace id + (liveIds s).count id) ∧
  (∀ id, conCount s.trace id ≤ 1)

end manual_function_solution

/-- Abstract view of a scene element, common to all solution namespaces:
a circle with its radius and center, or a square with its side and
center. -/
inductive AShape where
  | circle (radius : ℚ) (center : Vector3D)
  | square (side : ℚ) (center : Vector3D)
deriving DecidableEq, Repr

/-- Modelled from the spec: the common behaviour every dispatch variant is
claimed to implement — `translate(shapes, v)` sets each shape's center to
`center + v` and changes nothing else.  This definition follows the
spec's words and serves as the reference for the refinement claim. -/
def specTranslate (v : Vector3D) : AShape → AShape
  | .circle r c => .circle r (c + v)
  | .square s c => .square s (c + v)

/-- Modelled from the spec: the reference scene-level translation, the
per-shape reference applied to each element in order. -/
def specTranslateScene (shapes : List AShape) (v : Vector3D) : List AShape :=
  shapes.map (specTranslate v)

/-- Everything about an abstract shape except its center: which
alternative it is and its dimension (radius or side). -/
def AShape.skeleton : AShape → Bool × ℚ
  | .circle r _ => (true, r)
  | .square s _ => (false, s)

/-- Center of an abstract shape. -/
def AShape.center : AShape → Vector3D
  | .circle _ c => c
  | .square _ c => c

namespace classic_solution

/-- `classic_solution::Circle`: radius and center (`Vector3D center{}`);
the strategy member is `ConcreteTranslateStrategy` for every shape the
benchmark builds, so dispatch through it is resolved in
`Shape.translate` below. -/
structure Circle where
  radius : ℚ
  center : Vector3D
deriving DecidableEq, Repr

/-- `classic_solution::Square`: side and center (`Vector3D center{}`). -/
structure Square where
  side : ℚ
  center : Vector3D
deriving DecidableEq, Repr

/-- `ConcreteTranslateStrategy::translate(Circle&, const Vector3D&)`:
`circle.center = circle.center + v`. -/
def ConcreteTranslateStrategy.translateCircle (c : Circle) (v : Vector3D) :
    Circle :=
  ⟨c.radius, c.center + v⟩

/-- `ConcreteTranslateStrategy::translate(Square&, const Vector3D&)`:
`square.center = square.center + v`. -/
def ConcreteTranslateStrategy.translateSquare (s : Square) (v : Vector3D) :
    Square :=
  ⟨s.side, s.center + v⟩

/-- A `classic_solution` shape held through `std::unique_ptr<Shape>`. -/
inductive Shape where
  | circle (c : Circle)
  | square (s : Square)
deriving DecidableEq, Repr

/-- Virtual dispatch `shape->translate(v)`: `Circle::translate` calls
`strategy->translate(*this, v)` with the concrete strategy, likewise for
`Square`. -/
def Shape.translate (v : Vector3D) : Shape → Shape
  | .circle c => .circle (ConcreteTranslateStrategy.translateCircle c v)
  | .square s => .square (ConcreteTranslateStrategy.translateSquare s v)

/-- `classic_solution::translate(Shapes&, const Vector3D&)`: translate
each shape of the scene in order. -/
def translate (shapes : List Shape) (v : Vector3D) : List Shape :=
  shapes.map (Shape.translate v)

/-- The constructor `Circle(r, strategy)`: `center{}` value-initializes
the center to zero. -/
def mkCircle (r : ℚ) : Shape := .circle ⟨r, Vector3D.zero⟩

/-- The constructor `Square(s, strategy)`: `center{}` value-initializes
the center to zero. -/
def mkSquare (s : ℚ) : Shape := .square ⟨s, Vector3D.zero⟩

/-- Abstraction into the common scene view. -/
def absShape : Shape → AShape
  | .circle c => .circle c.radius c.center
  | .square s => .square s.side s.center

end classic_solution

namespace std_function_solution

/-- `std_function_solution::Circle`: radius, center and a
`std::function` strategy; every shape the benchmark builds stores
`Translate{}`, so dispatch through the `std::function` is resolved in
`Shape.translate` below. -/
structure Circle where
  radius : ℚ
  center : Vector3D
deriving DecidableEq, Repr

/-- `std_function_solution::Square`. -/
structure Square where
  side : ℚ
  center : Vector3D
deriving DecidableEq, Repr

/-- Free function `translate(Circle&, const Vector3D&)`, what
`Translate::operator()` forwards to. -/
def translateCircle (c : Circle) (v : Vector3D) : Circle :=
  ⟨c.radius, c.center + v⟩

/-- Free function `translate(Square&, const Vector3D&)`. -/
def translateSquare (s : Square) (v : Vector3D) : Square :=
  ⟨s.side, s.center + v⟩

/-- A `std_function_solution` shape held through `std::unique_ptr`. -/
inductive Shape where
  | circle (c : Circle)
  | square (s : Square)
deriving DecidableEq, Repr

/-- Virtual dispatch `shape->translate(v)`: `Circle::translate` calls the
stored `std::function` strategy (`Translate{}`), which calls the free
`translate`. -/
def Shape.translate (v : Vector3D) : Shape → Shape
  | .circle c => .circle (translateCircle c v)
  | .square s => .square (translateSquare s v)

/-- `std_function_solution::translate(Shapes&, const Vector3D&)`. -/
def translate (shapes : List Shape) (v : Vector3D) : List Shape :=
  shapes.map (Shape.translate v)

/-- The constructor `Circle(r, ts)`: the `center` member is
default-initialized, so its `x{} y{} z{}` member initializers zero it. -/
def mkCircle (r : ℚ) : Shape := .circle ⟨r, Vector3D.zero⟩

/-- The constructor `Square(s, ts)`: center zero-initialized. -/
def mkSquare (s : ℚ) : Shape := .square ⟨s, Vector3D.zero⟩

/-- Abstraction into the common scene view. -/
def absShape : Shape → AShape
  | .circle c => .circle c.radius c.center
  | .square s => .square s.side s.center

end std_function_solution

namespace manual_function_solution

/-- `manual_function_solution::Circle`: radius, center and a
`Function<void(Circle&, const Vector3D&),8>` strategy; every shape the
benchmark builds stores `Translate{}` (an empty struct, `sizeof` 1), so
the stored strategy is `circleStrategy` below. -/
structure Circle where
  radius : ℚ
  center : Vector3D
deriving DecidableEq, Repr

/-- `manual_function_solution::Square`. -/
structure Square where
  side : ℚ
  center : Vector3D
deriving DecidableEq, Repr

/-- Free function `translate(Circle&, const Vector3D&)`, what
`Translate::operator()` forwards to. -/
def translateCircle (c : Circle) (v : Vector3D) : Circle :=
  ⟨c.radius, c.center + v⟩

/-- Free function `translate(Square&, const Vector3D&)`. -/
def translateSquare (s : Square) (v : Vector3D) : Square :=
  ⟨s.side, s.center + v⟩

/-- The strategy each benchmark-built `Circle` stores: the `Function`
container constructed from `Translate{}` (an empty struct, `sizeof` 1),
whose call forwards to the free `translate(Circle&, const Vector3D&)`. -/
def circleStrategy : Function (Circle × Vector3D) Circle 8 :=
  Function.construct ⟨1, fun p => translateCircle p.1 p.2⟩ (by decide)

/-- The strategy each benchmark-built `Square` stores. -/
def squareStrategy : Function (Square × Vector3D) Square 8 :=
  Function.construct ⟨1, fun p => translateSquare p.1 p.2⟩ (by decide)

/-- A `manual_function_solution` shape held through `std::unique_ptr`. -/
inductive Shape where
  | circle (c : Circle)
  | square (s : Square)
deriving DecidableEq, Repr

/-- Virtual dispatch `shape->translate(v)`: `Circle::translate` runs
`strategy( *this, v )`, i.e. invokes the stored `Function` container. -/
def Shape.translate (v : Vector3D) : Shape → Shape
  | .circle c => .circle (circleStrategy.invoke (c, v))
  | .square s => .square (squareStrategy.invoke (s, v))

/-- `manual_function_solution::translate(Shapes&, const Vector3D&)`. -/
def translate (shapes : List Shape) (v : Vector3D) : List Shape :=
  shapes.map (Shape.translate v)

/-- The constructor `Circle(r, ts)`: the `center` member is
default-initialized, so its `x{} y{} z{}` member initializers zero it. -/
def mkCircle (r : ℚ) : Shape := .circle ⟨r, Vector3D.zero⟩

/-- The constructor `Square(s, ts)`: center zero-initialized. -/
def mkSquare (s : ℚ) : Shape := .square ⟨s, Vector3D.zero⟩

/-- Abstraction into the common scene view. -/
def absShape : Shape → AShape
  | .circle c => .circle c.radius c.center
  | .square s => .square s.side s.center

end manual_function_solution

namespace enum_solution

/-- `enum_solution::ShapeType`: the explicit type tag. -/
inductive ShapeType where
  | circle
  | square
deriving DecidableEq, Repr

/-- `enum_solution::Circle`: base-class tag `circle`, radius, and center
(`center()` value-initialized in the constructor). -/
structure Circle where
  radius : ℚ
  center : Vector3D
deriving DecidableEq, Repr

/-- `enum_solution::Square`. -/
structure Square where
  side : ℚ
  center : Vector3D
deriving DecidableEq, Repr

/-- A shape held through `std::unique_ptr<Shape>`; the dynamic type is
`Circle` exactly when the stored base-class tag is `circle`, which is
what the `static_cast` in `translate` relies on. -/
inductive Shape where
  | circle (c : Circle)
  | square (s : Square)
deriving DecidableEq, Repr

/-- The base-class member `Shape::type`, as set by the `Circle` and
`Square` constructors. -/
def Shape.type : Shape → ShapeType
  | .circle _ => .circle
  | .square _ => .square

/-- Free function `translate(Circle&, const Vector3D&)`. -/
def translateCircle (c : Circle) (v : Vector3D) : Circle :=
  ⟨c.radius, c.center + v⟩

/-- Free function `translate(Square&, const Vector3D&)`. -/
def translateSquare (s : Square) (v : Vector3D) : Square :=
  ⟨s.side, s.center + v⟩

/-- The `switch( s->type )` of `enum_solution::translate`: the tag of a
shape determines its constructor, so the `static_cast` to the matching
derived type is the pattern match. -/
def Shape.translate (v : Vector3D) : Shape → Shape
  | .circle c => .circle (translateCircle c v)
  | .square s => .square (translateSquare s v)

/-- `enum_solution::translate(Shapes&, const Vector3D&)`. -/
def translate (shapes : List Shape) (v : Vector3D) : List Shape :=
  shapes.map (Shape.translate v)

/-- The constructor `Circle(rad)`: tag `circle`, `center()`
value-initialized to zero. -/
def mkCircle (r : ℚ) : Shape := .circle ⟨r, Vector3D.zero⟩

/-- The constructor `Square(s)`: tag `square`, center zero. -/
def mkSquare (s : ℚ) : Shape := .square ⟨s, Vector3D.zero⟩

/-- Abstraction into the common scene view. -/
def absShape : Shape → AShape
  | .circle c => .circle c.radius c.center
  | .square s => .square s.side s.center

end enum_solution

namespace object_oriented_solution

/-- `object_oriented_solution::Circle`. -/
structure Circle where
  radius : ℚ
  center : Vector3D
deriving DecidableEq, Repr

/-- `object_oriented_solution::Square`. -/
structure Square where
  side : ℚ
  center : Vector3D
deriving DecidableEq, Repr

/-- A shape held through `std::unique_ptr<Shape>`. -/
inductive Shape where
  | circle (c : Circle)
  | square (s : Square)
deriving DecidableEq, Repr

/-- Virtual dispatch `s->translate(v)`: each override runs
`center = center + v`. -/
def Shape.translate (v : Vector3D) : Shape → Shape
  | .circle c => .circle ⟨c.radius, c.center + v⟩
  | .square s => .square ⟨s.side, s.center + v⟩

/-- `object_oriented_solution::translate(Shapes&, const Vector3D&)`. -/
def translate (shapes : List Shape) (v : Vector3D) : List Shape :=
  shapes.map (Shape.translate v)

/-- The constructor `Circle(rad)`: `center()` value-initialized. -/
def mkCircle (r : ℚ) : Shape := .circle ⟨r, Vector3D.zero⟩

/-- The constructor `Square(s)`: `center()` value-initialized. -/
def mkSquare (s : ℚ) : Shape := .square ⟨s, Vector3D.zero⟩

/-- Abstraction into the common scene view. -/
def absShape : Shape → AShape
  | .circle c => .circle c.radius c.center
  | .square s => .square s.side s.center

end object_oriented_solution

namespace visitor_solution

/-- `visitor_solution::Circle`: `radius{}` and `center{}` default member
initializers; the constructor sets the radius. -/
structure Circle where
  radius : ℚ
  center : Vector3D
deriving DecidableEq, Repr

/-- `visitor_solution::Square`. -/
structure Square where
  side : ℚ
  center : Vector3D
deriving DecidableEq, Repr

/-- A shape held through `std::unique_ptr<Shape>`. -/
inductive Shape where
  | circle (c : Circle)
  | square (s : Square)
deriving DecidableEq, Repr

/-- `Translate::visit(Circle&)`: `c.center = c.center + v`. -/
def Translate.visitCircle (v : Vector3D) (c : Circle) : Circle :=
  ⟨c.radius, c.center + v⟩

/-- `Translate::visit(Square&)`: `s.center = s.center + v`. -/
def Translate.visitSquare (v : Vector3D) (s : Square) : Square :=
  ⟨s.side, s.center + v⟩

/-- Double dispatch `shape->accept( Translate{ v } )`: each `accept`
override calls `v.visit( *this )` on its concrete type. -/
def Shape.translate (v : Vector3D) : Shape → Shape
  | .circle c => .circle (Translate.visitCircle v c)
  | .square s => .square (Translate.visitSquare v s)

/-- `visitor_solution::translate(Shapes const&, const Vector3D&)`. -/
def translate (shapes : List Shape) (v : Vector3D) : List Shape :=
  shapes.map (Shape.translate v)

/-- The constructor `Circle(r)`: `center{}` default member initializer. -/
def mkCircle (r : ℚ) : Shape := .circle ⟨r, Vector3D.zero⟩

/-- The constructor `Square(s)`: `center{}` default member initializer. -/
def mkSquare (s : ℚ) : Shape := .square ⟨s, Vector3D.zero⟩

/-- Abstraction into the common scene view. -/
def absShape : Shape → AShape
  | .circle c => .circle c.radius c.center
  | .square s => .square s.side s.center

end visitor_solution

namespace std_variant_solution

/-- `std_variant_solution::Circle`: aggregate with `radius{}` and
`center{}`. -/
structure Circle where
  radius : ℚ
  center : Vector3D
deriving DecidableEq, Repr

/-- `std_variant_solution::Square`. -/
structure Square where
  side : ℚ
  center : Vector3D
deriving DecidableEq, Repr

/-- `std::variant<Circle,Square>`: a sum with the two alternatives. -/
inductive Shape where
  | circle (c : Circle)
  | square (s : Square)
deriving DecidableEq, Repr

/-- `Translate::operator()(Circle&)`. -/
def Translate.applyCircle (v : Vector3D) (c : Circle) : Circle :=
  ⟨c.radius, c.center + v⟩

/-- `Translate::operator()(Square&)`. -/
def Translate.applySquare (v : Vector3D) (s : Square) : Square :=
  ⟨s.side, s.center + v⟩

/-- `std::visit( Translate{ v }, s )`: apply the overload matching the
active alternative. -/
def Shape.translate (v : Vector3D) : Shape → Shape
  | .circle c => .circle (Translate.applyCircle v c)
  | .square s => .square (Translate.applySquare v s)

/-- `std_variant_solution::translate(Shapes&, const Vector3D&)`. -/
def translate (shapes : List Shape) (v : Vector3D) : List Shape :=
  shapes.map (Shape.translate v)

/-- `Circle{ r }`: aggregate initialization, `center{}` zero. -/
def mkCircle (r : ℚ) : Shape := .circle ⟨r, Vector3D.zero⟩

/-- `Square{ s }`: aggregate initialization, `center{}` zero. -/
def mkSquare (s : ℚ) : Shape := .square ⟨s, Vector3D.zero⟩

/-- Abstraction into the common scene view. -/
def absShape : Shape → AShape
  | .circle c => .circle c.radius c.center
  | .square s => .square s.side s.center

end std_variant_solution

namespace mpark_variant_solution

/-- `mpark_variant_solution::Circle`: aggregate with `radius{}` and
`center{}`. -/
structure Circle where
  radius : ℚ
  center : Vector3D
deriving DecidableEq, Repr

/-- `mpark_variant_solution::Square`. -/
structure Square where
  side : ℚ
  center : Vector3D
deriving DecidableEq, Repr

/-- `mpark::variant<Circle,Square>`: a sum with the two alternatives. -/
inductive Shape where
  | circle (c : Circle)
  | square (s : Square)
deriving DecidableEq, Repr

/-- `Translate::operator()(Circle&)`. -/
def Translate.applyCircle (v : Vector3D) (c : Circle) : Circle :=
  ⟨c.radius, c.center + v⟩

/-- `Translate::operator()(Square&)`. -/
def Translate.applySquare (v : Vector3D) (s : Square) : Square :=
  ⟨s.side, s.center + v⟩

/-- `mpark::visit( Translate{ v }, s )`: apply the overload matching the
active alternative. -/
def Shape.translate (v : Vector3D) : Shape → Shape
  | .circle c => .circle (Translate.applyCircle v c)
  | .square s => .square (Translate.applySquare v s)

/-- `mpark_variant_solution::translate(Shapes&, const Vector3D&)`. -/
def translate (shapes : List Shape) (v : Vector3D) : List Shape :=
  shapes.map (Shape.translate v)

/-- `Circle{ r }`: aggregate initialization, `center{}` zero. -/
def mkCircle (r : ℚ) : Shape := .circle ⟨r, Vector3D.zero⟩

/-- `Square{ s }`: aggregate initialization, `center{}` zero. -/
def mkSquare (s : ℚ) : Shape := .square ⟨s, Vector3D.zero⟩

/-- Abstraction into the common scene view. -/
def absShape : Shape → AShape
  | .circle c => .circle c.radius c.center
  | .square s => .square s.side s.center

end mpark_variant_solution

/-! ### Helper lemmas -/

theorem Vector3D.add_def (a b : Vector3D) :
    a + b = ⟨a.x + b.x, a.y + b.y, a.z + b.z⟩ := rfl

theorem Vector3D.add_assoc (a b c : Vector3D) : a + b + c = a + (b + c) := by
  simp [Vector3D.add_def]; refine ⟨?_, ?_, ?_⟩ <;> ring

theorem Vector3D.zero_add (a : Vector3D) : Vector3D.zero + a = a := by
  simp [Vector3D.add_def, Vector3D.zero]

theorem Vector3D.add_zero (a : Vector3D) : a + Vector3D.zero = a := by
  simp [Vector3D.add_def, Vector3D.zero]

theorem vsum_nil : vsum [] = Vector3D.zero := rfl

theorem foldl_add_eq (vs : List Vector3D) (a : Vector3D) :
    vs.foldl (· + ·) a = a + vsum vs := by
  induction vs generalizing a with
  | nil => simp [vsum, Vector3D.add_zero]
  | cons v vs ih =>
      have h1 : vsum (v :: vs) = v + vsum vs := by
        simp only [vsum, List.foldl_cons, Vector3D.zero_add]
        exact ih v
      rw [List.foldl_cons, ih (a + v), h1, Vector3D.add_assoc]

theorem vsum_cons (v : Vector3D) (vs : List Vector3D) :
    vsum (v :: vs) = v + vsum vs := by
  simp only [vsum, List.foldl_cons, Vector3D.zero_add]
  exact foldl_add_eq vs v

/-- Generic accumulation lemma: if a one-step translation adds `v` to the
center and a scene is translated by folding over a list of vectors, the
final center is the initial center plus the sum of the vectors. -/
theorem center_foldl {S : Type} (cen : S → Vector3D) (tr : Vector3D → S → S)
    (hstep : ∀ v s, cen (tr v s) = cen s + v) (s : S) (vs : List Vector3D) :
    cen (vs.foldl (fun t v => tr v t) s) = cen s + vsum vs := by
  induction vs generalizing s with
  | nil => simp [vsum_nil, Vector3D.add_zero]
  | cons v vs ih =>
      simp only [List.foldl_cons, ih, hstep, vsum_cons]
      rw [Vector3D.add_assoc]

namespace manual_function_solution

/-- C1: for every callable `fn` with `sizeof(fn) ≤ N` and every argument
tuple `a`, constructing a `Function<R(Args...),N>` from `fn` and then
invoking the container with `a` returns the same result (argument effects
included, by state passing) as calling `fn` directly. -/
theorem construct_invoke_eq {α β : Type} {N : Nat} (fn : Closure α β)
    (h : fn.size ≤ N) (a : α) :
    (Function.construct fn h).invoke a = fn.fn a := rfl

/-- Witness for C1 at a concrete callable of size 4 in a capacity-8
container. -/
theorem construct_invoke_eq_witness :
    (Function.construct (⟨4, fun _ => (7 : Nat)⟩ : Closure Unit Nat)
      (by decide) : Function Unit Nat 8).invoke () = 7 :=
  construct_invoke_eq ⟨4, fun _ => (7 : Nat)⟩ (by decide) ()

/-- C2: copy-constructing `c2` from `c1` yields a container whose
invocation agrees with `c1` on every argument, and whose payload is an
equal, independently held copy of `c1`'s payload (value semantics: the
clone re-constructs the payload in the destination buffer). -/
theorem copy_invoke_eq {α β : Type} {N : Nat} (f : Function α β N) (a : α) :
    (f.copy).invoke a = f.invoke a ∧ (f.copy).payload = f.payload :=
  ⟨rfl, rfl⟩

/-- C4 counterexample: the claim as stated fails on the code.  For
`Fn = long double` on LP64 — `sizeof` 16, `alignof` 16 — with `N = 16`,
the `static_assert( sizeof(Fn) <= N )` passes (16 ≤ 16), yet
`sizeof(Model<Fn>)` is 32 (the `fn_` member is placed at offset 16 and
the object is padded to 16-byte alignment), exceeding the 24-byte buffer
`char buffer[N+8UL]`: the placement-new writes past the buffer's end. -/
theorem model_overflow_counterexample :
    (16 : Nat) ≤ 16 ∧ bufferSize 16 < modelSize 16 16 := by decide

/-- C4 (amended): for every payload type `Fn` accepted by the constructor
whose alignment divides the 8-byte vtable-pointer alignment, and every
capacity `N` that is a multiple of 8 — which covers the repository's only
instantiation, `N = 8` with the empty `Translate{}` payload — the
placement-constructed wrapper `Model<Fn>`, alignment and tail padding
included, fits within the inline buffer `char buffer[N+8UL]`; this
covers the placement-new in the converting constructor, in `clone`
during copy construction, and in copy assignment, all of which construct
exactly such a wrapper.  Over-aligned payloads or capacities that are
not multiples of 8 can overflow despite passing the `static_assert`. -/
theorem model_fits_buffer_aligned (fnSize fnAlign N : Nat) (h0 : 0 < fnAlign)
    (hd : fnAlign ∣ 8) (hs : fnSize ≤ N) (hN : 8 ∣ N) :
    modelSize fnSize fnAlign ≤ bufferSize N := by
  have hle : fnAlign ≤ 8 := Nat.le_of_dvd (by omega) hd
  interval_cases fnAlign <;>
    simp only [modelSize, modelAlign, fnOffset, alignUp, ptrSize,
      bufferSize] <;>
    norm_num <;>
    omega

/-- Witness for the amended C4 at the repository's instantiation:
`Function<void(Shape&, const Vector3D&),8>` storing `Translate{}`
(`sizeof` 1, `alignof` 1). -/
theorem model_fits_buffer_aligned_witness :
    0 < 1 ∧ (1 : Nat) ∣ 8 ∧ (1 : Nat) ≤ 8 ∧ (8 : Nat) ∣ 8 ∧
    modelSize 1 1 ≤ bufferSize 8 :=
  ⟨by decide, by decide, by decide, by decide,
    model_fits_buffer_aligned 1 1 8 (by decide) (by decide) (by decide)
      (by decide)⟩

/-- C7: a callable whose `sizeof` exceeds `N` has no construction path
(the `static_assert` in the converting constructor fires at compile
time), an admissible one is always stored; consequently every `Function`
value that exists holds a payload of size at most `N` — no runtime
capacity error can occur. -/
theorem tryConstruct_iff {α β : Type} (N : Nat) (fn : Closure α β) :
    ((tryConstruct N fn : Option (Function α β N)).isSome ↔ fn.size ≤ N) ∧
    (∀ c : Function α β N, c.payload.size ≤ N) := by
  refine ⟨?_, fun c => c.size_le⟩
  unfold tryConstruct
  split <;> simp_all

end manual_function_solution

namespace manual_function_solution

/-- C3: after the copy-assignment expression `c2 = c1` (parameter passed
by value, destroy-then-clone in the body, temporary destroyed at end of
the full expression), invoking `c2` agrees with invoking `c1` on every
argument, and the wrapper that `c2` held before the assignment is
destroyed exactly once in the emitted events — no leak and no
double-destroy.  The hypothesis says `c2`'s current wrapper identifier
precedes the fresh counter, which holds for every wrapper ever issued. -/
theorem copyAssign_destroy_once {γ β : Type} (dst src : Container (Closure γ β))
    (fresh : Nat) (h : dst.id < fresh) :
    (∀ a, (copyAssign dst src fresh).1.payload.fn a = src.payload.fn a) ∧
    desCount (copyAssign dst src fresh).2.2 dst.id = 1 := by
  refine ⟨fun a => rfl, ?_⟩
  simp only [copyAssign, desCount, List.count_cons, List.count_nil]
  have h1 : fresh ≠ dst.id := by omega
  simp [h1]

/-- Witness for C3 at concrete containers and counter. -/
theorem copyAssign_destroy_once_witness :
    (∀ a : Unit,
      (copyAssign (⟨0, ⟨1, fun _ => (3 : Nat)⟩⟩ : Container (Closure Unit Nat))
        ⟨1, ⟨1, fun _ => (5 : Nat)⟩⟩ 2).1.payload.fn a =
      (⟨1, fun _ => (5 : Nat)⟩ : Closure Unit Nat).fn a) ∧
    desCount
      (copyAssign (⟨0, ⟨1, fun _ => (3 : Nat)⟩⟩ : Container (Closure Unit Nat))
        ⟨1, ⟨1, fun _ => (5 : Nat)⟩⟩ 2).2.2 0 = 1 :=
  copyAssign_destroy_once ⟨0, ⟨1, fun _ => (3 : Nat)⟩⟩
    ⟨1, ⟨1, fun _ => (5 : Nat)⟩⟩ 2 (by decide)

/-- C5: self-assignment `c = c` is safe.  Because the parameter of
`operator=( Function f )` is passed by value, `f` is a distinct container
cloned from `c` before `c`'s payload is destroyed; afterwards `c` holds a
live payload behaviourally equal to the one it held before, no wrapper is
destroyed twice, and the wrapper finally live in `c` is never destroyed
in the emitted events (so it is not invoked after destruction). -/
theorem selfAssign_safe {γ β : Type} (c : Container (Closure γ β))
    (fresh : Nat) (h : c.id < fresh) :
    (∀ a, (copyAssign c c fresh).1.payload.fn a = c.payload.fn a) ∧
    (∀ id, desCount (copyAssign c c fresh).2.2 id ≤ 1) ∧
    desCount (copyAssign c c fresh).2.2 (copyAssign c c fresh).1.id = 0 := by
  refine ⟨fun a => rfl, fun id => ?_, ?_⟩
  · simp only [copyAssign, desCount, List.count_cons, List.count_nil]
    have h1 : c.id ≠ fresh := by omega
    by_cases h2 : c.id = id <;> by_cases h3 : fresh = id <;> simp_all
  · simp only [copyAssign, desCount, List.count_cons, List.count_nil]
    have h1 : c.id ≠ fresh + 1 := by omega
    have h2 : fresh ≠ fresh + 1 := by omega
    simp [h1, h2]

/-- Witness for C5 at a concrete container and counter. -/
theorem selfAssign_safe_witness :
    (∀ a : Unit,
      (copyAssign (⟨0, ⟨1, fun _ => (3 : Nat)⟩⟩ : Container (Closure Unit Nat))
        ⟨0, ⟨1, fun _ => (3 : Nat)⟩⟩ 1).1.payload.fn a =
      (⟨1, fun _ => (3 : Nat)⟩ : Closure Unit Nat).fn a) ∧
    (∀ id, desCount
      (copyAssign (⟨0, ⟨1, fun _ => (3 : Nat)⟩⟩ : Container (Closure Unit Nat))
        ⟨0, ⟨1, fun _ => (3 : Nat)⟩⟩ 1).2.2 id ≤ 1) ∧
    desCount
      (copyAssign (⟨0, ⟨1, fun _ => (3 : Nat)⟩⟩ : Container (Closure Unit Nat))
        ⟨0, ⟨1, fun _ => (3 : Nat)⟩⟩ 1).2.2
      (copyAssign (⟨0, ⟨1, fun _ => (3 : Nat)⟩⟩ : Container (Closure Unit Nat))
        ⟨0, ⟨1, fun _ => (3 : Nat)⟩⟩ 1).1.id = 0 :=
  selfAssign_safe ⟨0, ⟨1, fun _ => (3 : Nat)⟩⟩ 1 (by decide)

end manual_function_solution

namespace manual_function_solution

theorem conCount_append (t₁ t₂ : List Event) (id : Nat) :
    conCount (t₁ ++ t₂) id = conCount t₁ id + conCount t₂ id := by
  simp [conCount, List.count_append]

theorem desCount_append (t₁ t₂ : List Event) (id : Nat) :
    desCount (t₁ ++ t₂) id = desCount t₁ id + desCount t₂ id := by
  simp [desCount, List.count_append]

theorem conCount_con_singleton (j id : Nat) :
    conCount [Event.construct j] id = if j = id then 1 else 0 := by
  simp only [conCount, List.count_cons, List.count_nil, beq_iff_eq,
    Event.construct.injEq, Nat.zero_add]

theorem desCount_con_singleton (j id : Nat) :
    desCount [Event.construct j] id = 0 := by
  simp [desCount, List.count_cons]

theorem count_map_destroy (l : List Nat) (id : Nat) :
    (l.map Event.destroy).count (Event.destroy id) = l.count id := by
  induction l with
  | nil => rfl
  | cons a t ih =>
      simp only [List.map_cons, List.count_cons, ih, beq_iff_eq,
        Event.destroy.injEq]

theorem count_set_add {β : Type} [DecidableEq β] (l : List β) (i : Nat) (a : β)
    (hi : i < l.length) (x : β) :
    (l.set i a).count x + (if l[i] = x then 1 else 0)
      = l.count x + (if a = x then 1 else 0) := by
  induction l generalizing i with
  | nil => simp at hi
  | cons b t ih =>
      cases i with
      | zero =>
          simp only [List.set_cons_zero, List.count_cons, List.getElem_cons_zero,
            beq_iff_eq]
          exact Nat.add_right_comm _ _ _
      | succ i =>
          have hi' : i < t.length := by simpa using hi
          have h2 := ih i hi'
          simp only [List.set_cons_succ, List.count_cons, List.getElem_cons_succ,
            beq_iff_eq] at h2 ⊢
          rw [Nat.add_right_comm, h2, Nat.add_right_comm]

end manual_function_solution

namespace manual_function_solution

theorem inv_init {α : Type} : Inv (MState.init α) := by
  refine ⟨?_, ?_, ?_, ?_⟩ <;>
    simp [MState.init, Inv, conCount, desCount, liveIds]

theorem push_fresh_inv {α : Type} (s : MState α) (p : α) (h : Inv s) :
    Inv ⟨s.containers ++ [⟨s.fresh, p⟩], s.fresh + 1,
      s.trace ++ [Event.construct s.fresh]⟩ := by
  obtain ⟨h1, h2, h3, h4⟩ := h
  refine ⟨?_, ?_, ?_, ?_⟩
  · intro c hc
    rcases List.mem_append.1 hc with hc | hc
    · exact Nat.lt_succ_of_lt (h1 c hc)
    · simp only [List.mem_singleton] at hc
      subst hc
      exact Nat.lt_succ_self _
  · intro id hid
    have hid' : s.fresh + 1 ≤ id := hid
    have hfr : s.fresh ≤ id := by omega
    have hne : s.fresh ≠ id := by omega
    refine ⟨?_, ?_⟩
    · rw [conCount_append, conCount_con_singleton, if_neg hne]
      have := (h2 id hfr).1
      omega
    · rw [desCount_append, desCount_con_singleton]
      have := (h2 id hfr).2
      omega
  · intro id
    have h3' := h3 id
    simp only [liveIds] at h3'
    simp only [liveIds, List.map_append, List.map_cons, List.map_nil,
      List.count_append]
    rw [conCount_append, conCount_con_singleton, desCount_append,
      desCount_con_singleton]
    have hsing : List.count id [s.fresh] = if s.fresh = id then 1 else 0 := by
      simp only [List.count_cons, List.count_nil, beq_iff_eq, Nat.zero_add]
    rw [hsing]
    by_cases e : s.fresh = id
    · have hc0 := (h2 id (le_of_eq e)).1
      have hd0 := (h2 id (le_of_eq e)).2
      rw [if_pos e]
      omega
    · rw [if_neg e]
      omega
  · intro id
    rw [conCount_append, conCount_con_singleton]
    by_cases e : s.fresh = id
    · have hc0 := (h2 id (by omega)).1
      rw [if_pos e]
      omega
    · rw [if_neg e]
      have := h4 id
      omega

end manual_function_solution

namespace manual_function_solution

theorem conCount_quad (f a id : Nat) :
    conCount [Event.construct f, Event.destroy a, Event.construct (f + 1),
      Event.destroy f] id
      = (if f = id then 1 else 0) + (if f + 1 = id then 1 else 0) := by
  simp only [conCount, List.count_cons, List.count_nil, beq_iff_eq,
    Event.construct.injEq, reduceCtorEq, if_false, Nat.zero_add, Nat.add_zero]
  split_ifs <;> omega

theorem desCount_quad (f a id : Nat) :
    desCount [Event.construct f, Event.destroy a, Event.construct (f + 1),
      Event.destroy f] id
      = (if a = id then 1 else 0) + (if f = id then 1 else 0) := by
  simp only [desCount, List.count_cons, List.count_nil, beq_iff_eq,
    Event.destroy.injEq, reduceCtorEq, if_false, Nat.zero_add, Nat.add_zero]
  split_ifs <;> omega

theorem conCount_destroy_map {α : Type} (l : List (Container α)) (id : Nat) :
    conCount (l.map (fun c => Event.destroy c.id)) id = 0 := by
  induction l with
  | nil => rfl
  | cons a t ih =>
      simp only [List.map_cons, conCount, List.count_cons, beq_iff_eq,
        reduceCtorEq, if_false, Nat.add_zero] at *
      exact ih

theorem desCount_destroy_map {α : Type} (l : List (Container α)) (id : Nat) :
    desCount (l.map (fun c => Event.destroy c.id)) id
      = List.count id (l.map Container.id) := by
  induction l with
  | nil => rfl
  | cons a t ih =>
      simp only [List.map_cons, desCount, List.count_cons, beq_iff_eq,
        Event.destroy.injEq] at *
      rw [ih]

theorem assign_inv {α : Type} (s : MState α) (i : Nat) (ci : Container α)
    (q : α) (hi : s.containers[i]? = some ci) (h : Inv s) :
    Inv ⟨s.containers.set i ⟨s.fresh + 1, q⟩, s.fresh + 2,
      s.trace ++ [Event.construct s.fresh, Event.destroy ci.id,
        Event.construct (s.fresh + 1), Event.destroy s.fresh]⟩ := by
  obtain ⟨h1, h2, h3, h4⟩ := h
  have hlen : i < s.containers.length := by
    rcases List.getElem?_eq_some_iff.1 hi with ⟨hl, _⟩
    exact hl
  have hgi : s.containers[i] = ci := by
    rcases List.getElem?_eq_some_iff.1 hi with ⟨hl, hg⟩
    exact hg
  have hmem : ci ∈ s.containers := by
    rw [← hgi]
    exact List.getElem_mem hlen
  have ha : ci.id < s.fresh := h1 ci hmem
  refine ⟨?_, ?_, ?_, ?_⟩
  · intro c hc
    rcases List.mem_or_eq_of_mem_set hc with hc | hc
    · have := h1 c hc
      show c.id < s.fresh + 2
      omega
    · subst hc
      show s.fresh + 1 < s.fresh + 2
      omega
  · intro id hid
    have hid' : s.fresh + 2 ≤ id := hid
    have h0 := h2 id (by omega)
    refine ⟨?_, ?_⟩
    · rw [conCount_append, conCount_quad, if_neg (by omega : ¬s.fresh = id),
        if_neg (by omega : ¬s.fresh + 1 = id)]
      omega
    · rw [desCount_append, desCount_quad, if_neg (by omega : ¬ci.id = id),
        if_neg (by omega : ¬s.fresh = id)]
      omega
  · intro id
    have h3' := h3 id
    simp only [liveIds] at h3'
    have hset := count_set_add (s.containers.map Container.id) i (s.fresh + 1)
      (by simpa using hlen) id
    simp only [List.getElem_map, hgi] at hset
    simp only [liveIds, List.map_set]
    rw [conCount_append, conCount_quad, desCount_append, desCount_quad]
    split_ifs at hset ⊢ <;> omega
  · intro id
    rw [conCount_append, conCount_quad]
    by_cases e2 : s.fresh = id
    · have h0 : conCount s.trace id = 0 := (h2 id (by omega)).1
      rw [if_pos e2, if_neg (by omega : ¬s.fresh + 1 = id)]
      omega
    · by_cases e3 : s.fresh + 1 = id
      · have h0 : conCount s.trace id = 0 := (h2 id (by omega)).1
        rw [if_neg e2, if_pos e3]
        omega
      · rw [if_neg e2, if_neg e3]
        have := h4 id
        omega

theorem step_inv {α : Type} (s : MState α) (op : Op α) (h : Inv s) :
    Inv (step s op) := by
  cases op with
  | newC p => exact push_fresh_inv s p h
  | copyC j =>
      cases hj : s.containers[j]? with
      | none => simpa [step, hj] using h
      | some c => simpa [step, hj] using push_fresh_inv s c.payload h
  | assignC i j =>
      cases hi : s.containers[i]? with
      | none => simpa [step, hi] using h
      | some ci =>
          cases hj : s.containers[j]? with
          | none => simpa [step, hi, hj] using h
          | some cj =>
              simpa [step, hi, hj, copyAssign] using assign_inv s i ci cj.payload hi h

theorem runOps_inv {α : Type} (s : MState α) (ops : List (Op α)) (h : Inv s) :
    Inv (runOps s ops) := by
  induction ops generalizing s with
  | nil => exact h
  | cons op ops ih => exact ih _ (step_inv s op h)

/-- C6: for any sequence of constructions, copy-constructions and
copy-assignments of `Function` containers followed by destruction of all
of them, every wrapper object ever placement-constructed in some buffer
is destroyed exactly once — no double-free and no leak; at every moment
each container holds exactly one live payload (the one its `pimpl_`
refers to), which is what the balance invariant `Inv` records. -/
theorem lifecycle_balanced {α : Type} (ops : List (Op α)) (id : Nat) :
    conCount (destroyAll (runOps (MState.init α) ops)).trace id
      = desCount (destroyAll (runOps (MState.init α) ops)).trace id ∧
    conCount (destroyAll (runOps (MState.init α) ops)).trace id ≤ 1 := by
  obtain ⟨h1, h2, h3, h4⟩ := runOps_inv (MState.init α) ops inv_init
  have h3' := h3 id
  simp only [liveIds] at h3'
  constructor
  · simp only [destroyAll]
    rw [conCount_append, desCount_append, conCount_destroy_map,
      desCount_destroy_map]
    omega
  · simp only [destroyAll]
    rw [conCount_append, conCount_destroy_map]
    have := h4 id
    omega

end manual_function_solution

/-- One step of `classic_solution` translation commutes with abstraction. -/
theorem classic_abs_translate (v : Vector3D) (s : classic_solution.Shape) :
    classic_solution.absShape (classic_solution.Shape.translate v s)
      = specTranslate v (classic_solution.absShape s) := by
  cases s <;> rfl

/-- Scene-level `classic_solution` translation refines the reference translation. -/
theorem classic_scene_abs (shapes : List classic_solution.Shape) (v : Vector3D) :
    (classic_solution.translate shapes v).map classic_solution.absShape
      = specTranslateScene (shapes.map classic_solution.absShape) v := by
  simp only [classic_solution.translate, specTranslateScene, List.map_map]
  exact List.map_congr_left fun s _ => classic_abs_translate v s

/-- Scene-level `classic_solution` translation changes no skeleton data and keeps
the number and order of shapes. -/
theorem classic_skeleton_preserved (shapes : List classic_solution.Shape) (v : Vector3D) :
    ((classic_solution.translate shapes v).map (fun s => (classic_solution.absShape s).skeleton)
      = shapes.map (fun s => (classic_solution.absShape s).skeleton)) ∧
    (classic_solution.translate shapes v).length = shapes.length := by
  constructor
  · simp only [classic_solution.translate, List.map_map]
    exact List.map_congr_left fun s _ => by cases s <;> rfl
  · simp [classic_solution.translate]

/-- Fresh `classic_solution` shapes have zero center, and folding translations over
a fresh shape accumulates the vector sum in the center. -/
theorem classic_center_accum :
    (∀ r : ℚ, (classic_solution.absShape (classic_solution.mkCircle r)).center = Vector3D.zero) ∧
    (∀ q : ℚ, (classic_solution.absShape (classic_solution.mkSquare q)).center = Vector3D.zero) ∧
    (∀ (r : ℚ) (vs : List Vector3D),
      (classic_solution.absShape (vs.foldl (fun t v => classic_solution.Shape.translate v t)
        (classic_solution.mkCircle r))).center = vsum vs) ∧
    (∀ (q : ℚ) (vs : List Vector3D),
      (classic_solution.absShape (vs.foldl (fun t v => classic_solution.Shape.translate v t)
        (classic_solution.mkSquare q))).center = vsum vs) := by
  refine ⟨fun r => rfl, fun q => rfl, fun r vs => ?_, fun q vs => ?_⟩
  · have h := center_foldl (fun s => (classic_solution.absShape s).center)
      classic_solution.Shape.translate (fun v s => by cases s <;> rfl) (classic_solution.mkCircle r) vs
    exact h.trans (Vector3D.zero_add (vsum vs))
  · have h := center_foldl (fun s => (classic_solution.absShape s).center)
      classic_solution.Shape.translate (fun v s => by cases s <;> rfl) (classic_solution.mkSquare q) vs
    exact h.trans (Vector3D.zero_add (vsum vs))

/-- One step of `std_function_solution` translation commutes with abstraction. -/
theorem stdfn_abs_translate (v : Vector3D) (s : std_function_solution.Shape) :
    std_function_solution.absShape (std_function_solution.Shape.translate v s)
      = specTranslate v (std_function_solution.absShape s) := by
  cases s <;> rfl

/-- Scene-level `std_function_solution` translation refines the reference translation. -/
theorem stdfn_scene_abs (shapes : List std_function_solution.Shape) (v : Vector3D) :
    (std_function_solution.translate shapes v).map std_function_solution.absShape
      = specTranslateScene (shapes.map std_function_solution.absShape) v := by
  simp only [std_function_solution.translate, specTranslateScene, List.map_map]
  exact List.map_congr_left fun s _ => stdfn_abs_translate v s

/-- Scene-level `std_function_solution` translation changes no skeleton data and keeps
the number and order of shapes. -/
theorem stdfn_skeleton_preserved (shapes : List std_function_solution.Shape) (v : Vector3D) :
    ((std_function_solution.translate shapes v).map (fun s => (std_function_solution.absShape s).skeleton)
      = shapes.map (fun s => (std_function_solution.absShape s).skeleton)) ∧
    (std_function_solution.translate shapes v).length = shapes.length := by
  constructor
  · simp only [std_function_solution.translate, List.map_map]
    exact List.map_congr_left fun s _ => by cases s <;> rfl
  · simp [std_function_solution.translate]

/-- Fresh `std_function_solution` shapes have zero center, and folding translations over
a fresh shape accumulates the vector sum in the center. -/
theorem stdfn_center_accum :
    (∀ r : ℚ, (std_function_solution.absShape (std_function_solution.mkCircle r)).center = Vector3D.zero) ∧
    (∀ q : ℚ, (std_function_solution.absShape (std_function_solution.mkSquare q)).center = Vector3D.zero) ∧
    (∀ (r : ℚ) (vs : List Vector3D),
      (std_function_solution.absShape (vs.foldl (fun t v => std_function_solution.Shape.translate v t)
        (std_function_solution.mkCircle r))).center = vsum vs) ∧
    (∀ (q : ℚ) (vs : List Vector3D),
      (std_function_solution.absShape (vs.foldl (fun t v => std_function_solution.Shape.translate v t)
        (std_function_solution.mkSquare q))).center = vsum vs) := by
  refine ⟨fun r => rfl, fun q => rfl, fun r vs => ?_, fun q vs => ?_⟩
  · have h := center_foldl (fun s => (std_function_solution.absShape s).center)
      std_function_solution.Shape.translate (fun v s => by cases s <;> rfl) (std_function_solution.mkCircle r) vs
    exact h.trans (Vector3D.zero_add (vsum vs))
  · have h := center_foldl (fun s => (std_function_solution.absShape s).center)
      std_function_solution.Shape.translate (fun v s => by cases s <;> rfl) (std_function_solution.mkSquare q) vs
    exact h.trans (Vector3D.zero_add (vsum vs))

/-- One step of `manual_function_solution` translation commutes with abstraction. -/
theorem mfs_abs_translate (v : Vector3D) (s : manual_function_solution.Shape) :
    manual_function_solution.absShape (manual_function_solution.Shape.translate v s)
      = specTranslate v (manual_function_solution.absShape s) := by
  cases s <;> rfl

/-- Scene-level `manual_function_solution` translation refines the reference translation. -/
theorem mfs_scene_abs (shapes : List manual_function_solution.Shape) (v : Vector3D) :
    (manual_function_solution.translate shapes v).map manual_function_solution.absShape
      = specTranslateScene (shapes.map manual_function_solution.absShape) v := by
  simp only [manual_function_solution.translate, specTranslateScene, List.map_map]
  exact List.map_congr_left fun s _ => mfs_abs_translate v s

/-- Scene-level `manual_function_solution` translation changes no skeleton data and keeps
the number and order of shapes. -/
theorem mfs_skeleton_preserved (shapes : List manual_function_solution.Shape) (v : Vector3D) :
    ((manual_function_solution.translate shapes v).map (fun s => (manual_function_solution.absShape s).skeleton)
      = shapes.map (fun s => (manual_function_solution.absShape s).skeleton)) ∧
    (manual_function_solution.translate shapes v).length = shapes.length := by
  constructor
  · simp only [manual_function_solution.translate, List.map_map]
    exact List.map_congr_left fun s _ => by cases s <;> rfl
  · simp [manual_function_solution.translate]

/-- Fresh `manual_function_solution` shapes have zero center, and folding translations over
a fresh shape accumulates the vector sum in the center. -/
theorem mfs_center_accum :
    (∀ r : ℚ, (manual_function_solution.absShape (manual_function_solution.mkCircle r)).center = Vector3D.zero) ∧
    (∀ q : ℚ, (manual_function_solution.absShape (manual_function_solution.mkSquare q)).center = Vector3D.zero) ∧
    (∀ (r : ℚ) (vs : List Vector3D),
      (manual_function_solution.absShape (vs.foldl (fun t v => manual_function_solution.Shape.translate v t)
        (manual_function_solution.mkCircle r))).center = vsum vs) ∧
    (∀ (q : ℚ) (vs : List Vector3D),
      (manual_function_solution.absShape (vs.foldl (fun t v => manual_function_solution.Shape.translate v t)
        (manual_function_solution.mkSquare q))).center = vsum vs) := by
  refine ⟨fun r => rfl, fun q => rfl, fun r vs => ?_, fun q vs => ?_⟩
  · have h := center_foldl (fun s => (manual_function_solution.absShape s).center)
      manual_function_solution.Shape.translate (fun v s => by cases s <;> rfl) (manual_function_solution.mkCircle r) vs
    exact h.trans (Vector3D.zero_add (vsum vs))
  · have h := center_foldl (fun s => (manual_function_solution.absShape s).center)
      manual_function_solution.Shape.translate (fun v s => by cases s <;> rfl) (manual_function_solution.mkSquare q) vs
    exact h.trans (Vector3D.zero_add (vsum vs))

/-- One step of `enum_solution` translation commutes with abstraction. -/
theorem enumsol_abs_translate (v : Vector3D) (s : enum_solution.Shape) :
    enum_solution.absShape (enum_solution.Shape.translate v s)
      = specTranslate v (enum_solution.absShape s) := by
  cases s <;> rfl

/-- Scene-level `enum_solution` translation refines the reference translation. -/
theorem enumsol_scene_abs (shapes : List enum_solution.Shape) (v : Vector3D) :
    (enum_solution.translate shapes v).map enum_solution.absShape
      = specTranslateScene (shapes.map enum_solution.absShape) v := by
  simp only [enum_solution.translate, specTranslateScene, List.map_map]
  exact List.map_congr_left fun s _ => enumsol_abs_translate v s

/-- Scene-level `enum_solution` translation changes no skeleton data and keeps
the number and order of shapes. -/
theorem enumsol_skeleton_preserved (shapes : List enum_solution.Shape) (v : Vector3D) :
    ((enum_solution.translate shapes v).map (fun s => (enum_solution.absShape s).skeleton)
      = shapes.map (fun s => (enum_solution.absShape s).skeleton)) ∧
    (enum_solution.translate shapes v).length = shapes.length := by
  constructor
  · simp only [enum_solution.translate, List.map_map]
    exact List.map_congr_left fun s _ => by cases s <;> rfl
  · simp [enum_solution.translate]

/-- Fresh `enum_solution` shapes have zero center, and folding translations over
a fresh shape accumulates the vector sum in the center. -/
theorem enumsol_center_accum :
    (∀ r : ℚ, (enum_solution.absShape (enum_solution.mkCircle r)).center = Vector3D.zero) ∧
    (∀ q : ℚ, (enum_solution.absShape (enum_solution.mkSquare q)).center = Vector3D.zero) ∧
    (∀ (r : ℚ) (vs : List Vector3D),
      (enum_solution.absShape (vs.foldl (fun t v => enum_solution.Shape.translate v t)
        (enum_solution.mkCircle r))).center = vsum vs) ∧
    (∀ (q : ℚ) (vs : List Vector3D),
      (enum_solution.absShape (vs.foldl (fun t v => enum_solution.Shape.translate v t)
        (enum_solution.mkSquare q))).center = vsum vs) := by
  refine ⟨fun r => rfl, fun q => rfl, fun r vs => ?_, fun q vs => ?_⟩
  · have h := center_foldl (fun s => (enum_solution.absShape s).center)
      enum_solution.Shape.translate (fun v s => by cases s <;> rfl) (enum_solution.mkCircle r) vs
    exact h.trans (Vector3D.zero_add (vsum vs))
  · have h := center_foldl (fun s => (enum_solution.absShape s).center)
      enum_solution.Shape.translate (fun v s => by cases s <;> rfl) (enum_solution.mkSquare q) vs
    exact h.trans (Vector3D.zero_add (vsum vs))

/-- One step of `object_oriented_solution` translation commutes with abstraction. -/
theorem oo_abs_translate (v : Vector3D) (s : object_oriented_solution.Shape) :
    object_oriented_solution.absShape (object_oriented_solution.Shape.translate v s)
      = specTranslate v (object_oriented_solution.absShape s) := by
  cases s <;> rfl

/-- Scene-level `object_oriented_solution` translation refines the reference translation. -/
theorem oo_scene_abs (shapes : List object_oriented_solution.Shape) (v : Vector3D) :
    (object_oriented_solution.translate shapes v).map object_oriented_solution.absShape
      = specTranslateScene (shapes.map object_oriented_solution.absShape) v := by
  simp only [object_oriented_solution.translate, specTranslateScene, List.map_map]
  exact List.map_congr_left fun s _ => oo_abs_translate v s

/-- Scene-level `object_oriented_solution` translation changes no skeleton data and keeps
the number and order of shapes. -/
theorem oo_skeleton_preserved (shapes : List object_oriented_solution.Shape) (v : Vector3D) :
    ((object_oriented_solution.translate shapes v).map (fun s => (object_oriented_solution.absShape s).skeleton)
      = shapes.map (fun s => (object_oriented_solution.absShape s).skeleton)) ∧
    (object_oriented_solution.translate shapes v).length = shapes.length := by
  constructor
  · simp only [object_oriented_solution.translate, List.map_map]
    exact List.map_congr_left fun s _ => by cases s <;> rfl
  · simp [object_oriented_solution.translate]

/-- Fresh `object_oriented_solution` shapes have zero center, and folding translations over
a fresh shape accumulates the vector sum in the center. -/
theorem oo_center_accum :
    (∀ r : ℚ, (object_oriented_solution.absShape (object_oriented_solution.mkCircle r)).center = Vector3D.zero) ∧
    (∀ q : ℚ, (object_oriented_solution.absShape (object_oriented_solution.mkSquare q)).center = Vector3D.zero) ∧
    (∀ (r : ℚ) (vs : List Vector3D),
      (object_oriented_solution.absShape (vs.foldl (fun t v => object_oriented_solution.Shape.translate v t)
        (object_oriented_solution.mkCircle r))).center = vsum vs) ∧
    (∀ (q : ℚ) (vs : List Vector3D),
      (object_oriented_solution.absShape (vs.foldl (fun t v => object_oriented_solution.Shape.translate v t)
        (object_oriented_solution.mkSquare q))).center = vsum vs) := by
  refine ⟨fun r => rfl, fun q => rfl, fun r vs => ?_, fun q vs => ?_⟩
  · have h := center_foldl (fun s => (object_oriented_solution.absShape s).center)
      object_oriented_solution.Shape.translate (fun v s => by cases s <;> rfl) (object_oriented_solution.mkCircle r) vs
    exact h.trans (Vector3D.zero_add (vsum vs))
  · have h := center_foldl (fun s => (object_oriented_solution.absShape s).center)
      object_oriented_solution.Shape.translate (fun v s => by cases s <;> rfl) (object_oriented_solution.mkSquare q) vs
    exact h.trans (Vector3D.zero_add (vsum vs))

/-- One step of `visitor_solution` translation commutes with abstraction. -/
theorem visitor_abs_translate (v : Vector3D) (s : visitor_solution.Shape) :
    visitor_solution.absShape (visitor_solution.Shape.translate v s)
      = specTranslate v (visitor_solution.absShape s) := by
  cases s <;> rfl

/-- Scene-level `visitor_solution` translation refines the reference translation. -/
theorem visitor_scene_abs (shapes : List visitor_solution.Shape) (v : Vector3D) :
    (visitor_solution.translate shapes v).map visitor_solution.absShape
      = specTranslateScene (shapes.map visitor_solution.absShape) v := by
  simp only [visitor_solution.translate, specTranslateScene, List.map_map]
  exact List.map_congr_left fun s _ => visitor_abs_translate v s

/-- Scene-level `visitor_solution` translation changes no skeleton data and keeps
the number and order of shapes. -/
theorem visitor_skeleton_preserved (shapes : List visitor_solution.Shape) (v : Vector3D) :
    ((visitor_solution.translate shapes v).map (fun s => (visitor_solution.absShape s).skeleton)
      = shapes.map (fun s => (visitor_solution.absShape s).skeleton)) ∧
    (visitor_solution.translate shapes v).length = shapes.length := by
  constructor
  · simp only [visitor_solution.translate, List.map_map]
    exact List.map_congr_left fun s _ => by cases s <;> rfl
  · simp [visitor_solution.translate]

/-- Fresh `visitor_solution` shapes have zero center, and folding translations over
a fresh shape accumulates the vector sum in the center. -/
theorem visitor_center_accum :
    (∀ r : ℚ, (visitor_solution.absShape (visitor_solution.mkCircle r)).center = Vector3D.zero) ∧
    (∀ q : ℚ, (visitor_solution.absShape (visitor_solution.mkSquare q)).center = Vector3D.zero) ∧
    (∀ (r : ℚ) (vs : List Vector3D),
      (visitor_solution.absShape (vs.foldl (fun t v => visitor_solution.Shape.translate v t)
        (visitor_solution.mkCircle r))).center = vsum vs) ∧
    (∀ (q : ℚ) (vs : List Vector3D),
      (visitor_solution.absShape (vs.foldl (fun t v => visitor_solution.Shape.translate v t)
        (visitor_solution.mkSquare q))).center = vsum vs) := by
  refine ⟨fun r => rfl, fun q => rfl, fun r vs => ?_, fun q vs => ?_⟩
  · have h := center_foldl (fun s => (visitor_solution.absShape s).center)
      visitor_solution.Shape.translate (fun v s => by cases s <;> rfl) (visitor_solution.mkCircle r) vs
    exact h.trans (Vector3D.zero_add (vsum vs))
  · have h := center_foldl (fun s => (visitor_solution.absShape s).center)
      visitor_solution.Shape.translate (fun v s => by cases s <;> rfl) (visitor_solution.mkSquare q) vs
    exact h.trans (Vector3D.zero_add (vsum vs))

/-- One step of `std_variant_solution` translation commutes with abstraction. -/
theorem stdvar_abs_translate (v : Vector3D) (s : std_variant_solution.Shape) :
    std_variant_solution.absShape (std_variant_solution.Shape.translate v s)
      = specTranslate v (std_variant_solution.absShape s) := by
  cases s <;> rfl

/-- Scene-level `std_variant_solution` translation refines the reference translation. -/
theorem stdvar_scene_abs (shapes : List std_variant_solution.Shape) (v : Vector3D) :
    (std_variant_solution.translate shapes v).map std_variant_solution.absShape
      = specTranslateScene (shapes.map std_variant_solution.absShape) v := by
  simp only [std_variant_solution.translate, specTranslateScene, List.map_map]
  exact List.map_congr_left fun s _ => stdvar_abs_translate v s

/-- Scene-level `std_variant_solution` translation changes no skeleton data and keeps
the number and order of shapes. -/
theorem stdvar_skeleton_preserved (shapes : List std_variant_solution.Shape) (v : Vector3D) :
    ((std_variant_solution.translate shapes v).map (fun s => (std_variant_solution.absShape s).skeleton)
      = shapes.map (fun s => (std_variant_solution.absShape s).skeleton)) ∧
    (std_variant_solution.translate shapes v).length = shapes.length := by
  constructor
  · simp only [std_variant_solution.translate, List.map_map]
    exact List.map_congr_left fun s _ => by cases s <;> rfl
  · simp [std_variant_solution.translate]

/-- Fresh `std_variant_solution` shapes have zero center, and folding translations over
a fresh shape accumulates the vector sum in the center. -/
theorem stdvar_center_accum :
    (∀ r : ℚ, (std_variant_solution.absShape (std_variant_solution.mkCircle r)).center = Vector3D.zero) ∧
    (∀ q : ℚ, (std_variant_solution.absShape (std_variant_solution.mkSquare q)).center = Vector3D.zero) ∧
    (∀ (r : ℚ) (vs : List Vector3D),
      (std_variant_solution.absShape (vs.foldl (fun t v => std_variant_solution.Shape.translate v t)
        (std_variant_solution.mkCircle r))).center = vsum vs) ∧
    (∀ (q : ℚ) (vs : List Vector3D),
      (std_variant_solution.absShape (vs.foldl (fun t v => std_variant_solution.Shape.translate v t)
        (std_variant_solution.mkSquare q))).center = vsum vs) := by
  refine ⟨fun r => rfl, fun q => rfl, fun r vs => ?_, fun q vs => ?_⟩
  · have h := center_foldl (fun s => (std_variant_solution.absShape s).center)
      std_variant_solution.Shape.translate (fun v s => by cases s <;> rfl) (std_variant_solution.mkCircle r) vs
    exact h.trans (Vector3D.zero_add (vsum vs))
  · have h := center_foldl (fun s => (std_variant_solution.absShape s).center)
      std_variant_solution.Shape.translate (fun v s => by cases s <;> rfl) (std_variant_solution.mkSquare q) vs
    exact h.trans (Vector3D.zero_add (vsum vs))

/-- One step of `mpark_variant_solution` translation commutes with abstraction. -/
theorem mpark_abs_translate (v : Vector3D) (s : mpark_variant_solution.Shape) :
    mpark_variant_solution.absShape (mpark_variant_solution.Shape.translate v s)
      = specTranslate v (mpark_variant_solution.absShape s) := by
  cases s <;> rfl

/-- Scene-level `mpark_variant_solution` translation refines the reference translation. -/
theorem mpark_scene_abs (shapes : List mpark_variant_solution.Shape) (v : Vector3D) :
    (mpark_variant_solution.translate shapes v).map mpark_variant_solution.absShape
      = specTranslateScene (shapes.map mpark_variant_solution.absShape) v := by
  simp only [mpark_variant_solution.translate, specTranslateScene, List.map_map]
  exact List.map_congr_left fun s _ => mpark_abs_translate v s

/-- Scene-level `mpark_variant_solution` translation changes no skeleton data and keeps
the number and order of shapes. -/
theorem mpark_skeleton_preserved (shapes : List mpark_variant_solution.Shape) (v : Vector3D) :
    ((mpark_variant_solution.translate shapes v).map (fun s => (mpark_variant_solution.absShape s).skeleton)
      = shapes.map (fun s => (mpark_variant_solution.absShape s).skeleton)) ∧
    (mpark_variant_solution.translate shapes v).length = shapes.length := by
  constructor
  · simp only [mpark_variant_solution.translate, List.map_map]
    exact List.map_congr_left fun s _ => by cases s <;> rfl
  · simp [mpark_variant_solution.translate]

/-- Fresh `mpark_variant_solution` shapes have zero center, and folding translations over
a fresh shape accumulates the vector sum in the center. -/
theorem mpark_center_accum :
    (∀ r : ℚ, (mpark_variant_solution.absShape (mpark_variant_solution.mkCircle r)).center = Vector3D.zero) ∧
    (∀ q : ℚ, (mpark_variant_solution.absShape (mpark_variant_solution.mkSquare q)).center = Vector3D.zero) ∧
    (∀ (r : ℚ) (vs : List Vector3D),
      (mpark_variant_solution.absShape (vs.foldl (fun t v => mpark_variant_solution.Shape.translate v t)
        (mpark_variant_solution.mkCircle r))).center = vsum vs) ∧
    (∀ (q : ℚ) (vs : List Vector3D),
      (mpark_variant_solution.absShape (vs.foldl (fun t v => mpark_variant_solution.Shape.translate v t)
        (mpark_variant_solution.mkSquare q))).center = vsum vs) := by
  refine ⟨fun r => rfl, fun q => rfl, fun r vs => ?_, fun q vs => ?_⟩
  · have h := center_foldl (fun s => (mpark_variant_solution.absShape s).center)
      mpark_variant_solution.Shape.translate (fun v s => by cases s <;> rfl) (mpark_variant_solution.mkCircle r) vs
    exact h.trans (Vector3D.zero_add (vsum vs))
  · have h := center_foldl (fun s => (mpark_variant_solution.absShape s).center)
      mpark_variant_solution.Shape.translate (fun v s => by cases s <;> rfl) (mpark_variant_solution.mkSquare q) vs
    exact h.trans (Vector3D.zero_add (vsum vs))

/-- Scene-level `enum_solution` translation leaves every shape's stored
type tag unchanged. -/
theorem enumsol_type_preserved (shapes : List enum_solution.Shape)
    (v : Vector3D) :
    (enum_solution.translate shapes v).map enum_solution.Shape.type
      = shapes.map enum_solution.Shape.type := by
  simp only [enum_solution.translate, List.map_map]
  exact List.map_congr_left fun s _ => by cases s <;> rfl

/-- C8: all dispatch variants implement the same translation.  Through
the evident abstraction of each namespace's shapes into the common scene
view, every `translate(shapes, v)` — virtual strategy, `std::function`
strategy, manual `Function` strategy, enum-tag switch, plain virtual
dispatch, visitor double dispatch, `std::variant` visitation and
`mpark::variant` visitation — equals the reference that shifts each
center by `v`; hence any two of the eight applied to equal scenes produce
equal scenes. -/
theorem translate_refines_spec :
    (∀ (shapes : List classic_solution.Shape) (v : Vector3D),
      (classic_solution.translate shapes v).map classic_solution.absShape
        = specTranslateScene (shapes.map classic_solution.absShape) v) ∧
    (∀ (shapes : List std_function_solution.Shape) (v : Vector3D),
      (std_function_solution.translate shapes v).map std_function_solution.absShape
        = specTranslateScene (shapes.map std_function_solution.absShape) v) ∧
    (∀ (shapes : List manual_function_solution.Shape) (v : Vector3D),
      (manual_function_solution.translate shapes v).map manual_function_solution.absShape
        = specTranslateScene (shapes.map manual_function_solution.absShape) v) ∧
    (∀ (shapes : List enum_solution.Shape) (v : Vector3D),
      (enum_solution.translate shapes v).map enum_solution.absShape
        = specTranslateScene (shapes.map enum_solution.absShape) v) ∧
    (∀ (shapes : List object_oriented_solution.Shape) (v : Vector3D),
      (object_oriented_solution.translate shapes v).map object_oriented_solution.absShape
        = specTranslateScene (shapes.map object_oriented_solution.absShape) v) ∧
    (∀ (shapes : List visitor_solution.Shape) (v : Vector3D),
      (visitor_solution.translate shapes v).map visitor_solution.absShape
        = specTranslateScene (shapes.map visitor_solution.absShape) v) ∧
    (∀ (shapes : List std_variant_solution.Shape) (v : Vector3D),
      (std_variant_solution.translate shapes v).map std_variant_solution.absShape
        = specTranslateScene (shapes.map std_variant_solution.absShape) v) ∧
    (∀ (shapes : List mpark_variant_solution.Shape) (v : Vector3D),
      (mpark_variant_solution.translate shapes v).map mpark_variant_solution.absShape
        = specTranslateScene (shapes.map mpark_variant_solution.absShape) v) :=
  ⟨classic_scene_abs, stdfn_scene_abs,
    mfs_scene_abs, enumsol_scene_abs,
    oo_scene_abs, visitor_scene_abs,
    stdvar_scene_abs, mpark_scene_abs⟩

/-- C9: in every solution namespace, `translate(shapes, v)` modifies only
the centers: the skeleton (which alternative each shape is, and its
radius or side), the number and order of the shapes, and — in the enum
namespace — each shape's stored type tag are all unchanged. -/
theorem translate_frame :
    (∀ (shapes : List classic_solution.Shape) (v : Vector3D),
      ((classic_solution.translate shapes v).map
          (fun s => (classic_solution.absShape s).skeleton)
        = shapes.map (fun s => (classic_solution.absShape s).skeleton)) ∧
      (classic_solution.translate shapes v).length = shapes.length) ∧
    (∀ (shapes : List std_function_solution.Shape) (v : Vector3D),
      ((std_function_solution.translate shapes v).map
          (fun s => (std_function_solution.absShape s).skeleton)
        = shapes.map (fun s => (std_function_solution.absShape s).skeleton)) ∧
      (std_function_solution.translate shapes v).length = shapes.length) ∧
    (∀ (shapes : List manual_function_solution.Shape) (v : Vector3D),
      ((manual_function_solution.translate shapes v).map
          (fun s => (manual_function_solution.absShape s).skeleton)
        = shapes.map (fun s => (manual_function_solution.absShape s).skeleton)) ∧
      (manual_function_solution.translate shapes v).length = shapes.length) ∧
    (∀ (shapes : List enum_solution.Shape) (v : Vector3D),
      ((enum_solution.translate shapes v).map
          (fun s => (enum_solution.absShape s).skeleton)
        = shapes.map (fun s => (enum_solution.absShape s).skeleton)) ∧
      (enum_solution.translate shapes v).length = shapes.length) ∧
    (∀ (shapes : List object_oriented_solution.Shape) (v : Vector3D),
      ((object_oriented_solution.translate shapes v).map
          (fun s => (object_oriented_solution.absShape s).skeleton)
        = shapes.map (fun s => (object_oriented_solution.absShape s).skeleton)) ∧
      (object_oriented_solution.translate shapes v).length = shapes.length) ∧
    (∀ (shapes : List visitor_solution.Shape) (v : Vector3D),
      ((visitor_solution.translate shapes v).map
          (fun s => (visitor_solution.absShape s).skeleton)
        = shapes.map (fun s => (visitor_solution.absShape s).skeleton)) ∧
      (visitor_solution.translate shapes v).length = shapes.length) ∧
    (∀ (shapes : List std_variant_solution.Shape) (v : Vector3D),
      ((std_variant_solution.translate shapes v).map
          (fun s => (std_variant_solution.absShape s).skeleton)
        = shapes.map (fun s => (std_variant_solution.absShape s).skeleton)) ∧
      (std_variant_solution.translate shapes v).length = shapes.length) ∧
    (∀ (shapes : List mpark_variant_solution.Shape) (v : Vector3D),
      ((mpark_variant_solution.translate shapes v).map
          (fun s => (mpark_variant_solution.absShape s).skeleton)
        = shapes.map (fun s => (mpark_variant_solution.absShape s).skeleton)) ∧
      (mpark_variant_solution.translate shapes v).length = shapes.length) ∧
    (∀ (shapes : List enum_solution.Shape) (v : Vector3D),
      (enum_solution.translate shapes v).map enum_solution.Shape.type
        = shapes.map enum_solution.Shape.type) :=
  ⟨classic_skeleton_preserved, stdfn_skeleton_preserved,
    mfs_skeleton_preserved, enumsol_skeleton_preserved,
    oo_skeleton_preserved, visitor_skeleton_preserved,
    stdvar_skeleton_preserved, mpark_skeleton_preserved,
    enumsol_type_preserved⟩

/-- C10: in every solution namespace, a freshly constructed `Circle` or
`Square` has center equal to the zero vector, and after applying the
translations `v_1 .. v_k` in order to a fresh shape its center equals the
accumulated sum `v_1 + ... + v_k`. -/
theorem fresh_center_accumulates :
    ((∀ r : ℚ, (classic_solution.absShape (classic_solution.mkCircle r)).center
        = Vector3D.zero) ∧
      (∀ q : ℚ, (classic_solution.absShape (classic_solution.mkSquare q)).center
        = Vector3D.zero) ∧
      (∀ (r : ℚ) (vs : List Vector3D),
        (classic_solution.absShape (vs.foldl
          (fun t v => classic_solution.Shape.translate v t)
          (classic_solution.mkCircle r))).center = vsum vs) ∧
      (∀ (q : ℚ) (vs : List Vector3D),
        (classic_solution.absShape (vs.foldl
          (fun t v => classic_solution.Shape.translate v t)
          (classic_solution.mkSquare q))).center = vsum vs)) ∧
    ((∀ r : ℚ, (std_function_solution.absShape (std_function_solution.mkCircle r)).center
        = Vector3D.zero) ∧
      (∀ q : ℚ, (std_function_solution.absShape (std_function_solution.mkSquare q)).center
        = Vector3D.zero) ∧
      (∀ (r : ℚ) (vs : List Vector3D),
        (std_function_solution.absShape (vs.foldl
          (fun t v => std_function_solution.Shape.translate v t)
          (std_function_solution.mkCircle r))).center = vsum vs) ∧
      (∀ (q : ℚ) (vs : List Vector3D),
        (std_function_solution.absShape (vs.foldl
          (fun t v => std_function_solution.Shape.translate v t)
          (std_function_solution.mkSquare q))).center = vsum vs)) ∧
    ((∀ r : ℚ, (manual_function_solution.absShape (manual_function_solution.mkCircle r)).center
        = Vector3D.zero) ∧
      (∀ q : ℚ, (manual_function_solution.absShape (manual_function_solution.mkSquare q)).center
        = Vector3D.zero) ∧
      (∀ (r : ℚ) (vs : List Vector3D),
        (manual_function_solution.absShape (vs.foldl
          (fun t v => manual_function_solution.Shape.translate v t)
          (manual_function_solution.mkCircle r))).center = vsum vs) ∧
      (∀ (q : ℚ) (vs : List Vector3D),
        (manual_function_solution.absShape (vs.foldl
          (fun t v => manual_function_solution.Shape.translate v t)
          (manual_function_solution.mkSquare q))).center = vsum vs)) ∧
    ((∀ r : ℚ, (enum_solution.absShape (enum_solution.mkCircle r)).center
        = Vector3D.zero) ∧
      (∀ q : ℚ, (enum_solution.absShape (enum_solution.mkSquare q)).center
        = Vector3D.zero) ∧
      (∀ (r : ℚ) (vs : List Vector3D),
        (enum_solution.absShape (vs.foldl
          (fun t v => enum_solution.Shape.translate v t)
          (enum_solution.mkCircle r))).center = vsum vs) ∧
      (∀ (q : ℚ) (vs : List Vector3D),
        (enum_solution.absShape (vs.foldl
          (fun t v => enum_solution.Shape.translate v t)
          (enum_solution.mkSquare q))).center = vsum vs)) ∧
    ((∀ r : ℚ, (object_oriented_solution.absShape (object_oriented_solution.mkCircle r)).center
        = Vector3D.zero) ∧
      (∀ q : ℚ, (object_oriented_solution.absShape (object_oriented_solution.mkSquare q)).center
        = Vector3D.zero) ∧
      (∀ (r : ℚ) (vs : List Vector3D),
        (object_oriented_solution.absShape (vs.foldl
          (fun t v => object_oriented_solution.Shape.translate v t)
          (object_oriented_solution.mkCircle r))).center = vsum vs) ∧
      (∀ (q : ℚ) (vs : List Vector3D),
        (object_oriented_solution.absShape (vs.foldl
          (fun t v => object_oriented_solution.Shape.translate v t)
          (object_oriented_solution.mkSquare q))).center = vsum vs)) ∧
    ((∀ r : ℚ, (visitor_solution.absShape (visitor_solution.mkCircle r)).center
        = Vector3D.zero) ∧
      (∀ q : ℚ, (visitor_solution.absShape (visitor_solution.mkSquare q)).center
        = Vector3D.zero) ∧
      (∀ (r : ℚ) (vs : List Vector3D),
        (visitor_solution.absShape (vs.foldl
          (fun t v => visitor_solution.Shape.translate v t)
          (visitor_solution.mkCircle r))).center = vsum vs) ∧
      (∀ (q : ℚ) (vs : List Vector3D),
        (visitor_solution.absShape (vs.foldl
          (fun t v => visitor_solution.Shape.translate v t)
          (visitor_solution.mkSquare q))).center = vsum vs)) ∧
    ((∀ r : ℚ, (std_variant_solution.absShape (std_variant_solution.mkCircle r)).center
        = Vector3D.zero) ∧
      (∀ q : ℚ, (std_variant_solution.absShape (std_variant_solution.mkSquare q)).center
        = Vector3D.zero) ∧
      (∀ (r : ℚ) (vs : List Vector3D),
        (std_variant_solution.absShape (vs.foldl
          (fun t v => std_variant_solution.Shape.translate v t)
          (std_variant_solution.mkCircle r))).center = vsum vs) ∧
      (∀ (q : ℚ) (vs : List Vector3D),
        (std_variant_solution.absShape (vs.foldl
          (fun t v => std_variant_solution.Shape.translate v t)
          (std_variant_solution.mkSquare q))).center = vsum vs)) ∧
    ((∀ r : ℚ, (mpark_variant_solution.absShape (mpark_variant_solution.mkCircle r)).center
        = Vector3D.zero) ∧
      (∀ q : ℚ, (mpark_variant_solution.absShape (mpark_variant_solution.mkSquare q)).center
        = Vector3D.zero) ∧
      (∀ (r : ℚ) (vs : List Vector3D),
        (mpark_variant_solution.absShape (vs.foldl
          (fun t v => mpark_variant_solution.Shape.translate v t)
          (mpark_variant_solution.mkCircle r))).center = vsum vs) ∧
      (∀ (q : ℚ) (vs : List Vector3D),
        (mpark_variant_solution.absShape (vs.foldl
          (fun t v => mpark_variant_solution.Shape.translate v t)
          (mpark_variant_solution.mkSquare q))).center = vsum vs)) :=
  ⟨classic_center_accum, stdfn_center_accum,
    mfs_center_accum, enumsol_center_accum,
    oo_center_accum, visitor_center_accum,
    stdvar_center_accum, mpark_center_accum⟩
